import Mathlib

set_option maxRecDepth 100000

/-!
Verification of the authentication subsystem of the Dashboard_Backend
repository: the JWT token service (`src/services/jwtService.js`), the
Google OAuth gateway (`src/services/googleOAuthService.js`), the
authentication middleware (`src/middleware/auth.js`) and the OAuth
callback controller (`src/controllers/warehouseController.js`,
`AuthController`).

JavaScript strings are modelled as `List Char` (`Str`).  A signed bearer
token is modelled as a list of token bytes (`Byte`): in a real JWT the
three segments are base64url text joined by `'.'`, and base64url text can
never contain the separator, so the separator is modelled as a byte
constructor (`Byte.dot`) distinct from every raw character.  The payload
segment is a faithful injective serialisation of the embedded claims, and
the signature segment is an idealised deterministic MAC over the
`header ++ '.' ++ payload` bytes, keyed by the configured secret: this is
exactly the interface contract of `jsonwebtoken`'s HS256 sign/verify pair.
-/

/-- A JavaScript string, as a list of characters. -/
abbrev Str := List Char

/-- One byte of a serialised bearer token.  `raw c` is an ordinary text
byte, `dot` is the JWT segment separator (never produced inside a
base64url segment), `sep` is the field separator used inside the payload
segment's serialisation. -/
inductive Byte where
  | raw (c : Char)
  | dot
  | sep
deriving DecidableEq, Repr

/-- Text bytes of a JavaScript string. -/
def strBytes (s : Str) : List Byte := s.map Byte.raw

/-- Serialisation of an optional string claim (a claim that may be
`undefined` in the JavaScript payload object). -/
def optBytes : Option Str → List Byte
  | none => []
  | some s => Byte.raw 'S' :: strBytes s

/-- Serialisation of a numeric claim (`iat` / `exp`). -/
def natBytes (n : Nat) : List Byte := List.replicate n (Byte.raw 'x')

/-- Split a byte list on a separator byte, JavaScript `String.split`
style: `n` separators yield `n + 1` (possibly empty) segments. -/
def splitOnByte (t : Byte) : List Byte → List (List Byte)
  | [] => [[]]
  | x :: r =>
    if x = t then
      [] :: splitOnByte t r
    else
      match splitOnByte t r with
      | [] => [[x]]
      | s :: ss => (x :: s) :: ss

/-- `l` contains no occurrence of the byte `t`. -/
def byteFree (t : Byte) (l : List Byte) : Prop := t ∉ l

instance (t : Byte) (l : List Byte) : Decidable (byteFree t l) := by
  unfold byteFree; infer_instance

/-- Injective dot-free re-encoding of arbitrary token bytes, used to make
the MAC segment dot-free the way base64url makes a real HMAC dot-free.
Every byte becomes exactly two raw bytes. -/
def sigEnc : List Byte → List Byte
  | [] => []
  | Byte.raw c :: r => Byte.raw '0' :: Byte.raw c :: sigEnc r
  | Byte.dot :: r => Byte.raw '1' :: Byte.raw '1' :: sigEnc r
  | Byte.sep :: r => Byte.raw '1' :: Byte.raw '2' :: sigEnc r

/-- Idealised deterministic MAC over a byte message, keyed by the signing
secret.  Deterministic and injective in the message for a fixed key,
which is the interface `jsonwebtoken` relies on from HMAC-SHA256. -/
def mac (secret : Str) (msg : List Byte) : List Byte :=
  strBytes secret ++ sigEnc msg

/-- The constant protected header of every token the service signs:
base64url of `{"alg":"HS256","typ":"JWT"}` (the service always signs with
`algorithm: 'HS256'`). -/
def headerBytes : List Byte :=
  strBytes "eyJhbGciOiJIUzI1NiIsInR5cCI6IkpXVCJ9".toList

/-- The claims object embedded in a signed token (the decoded payload
returned by `jwt.verify` / `jwt.decode`). -/
structure TokenPayload where
  id : Str
  email : Str
  name : Option Str
  picture : Option Str
  domain : Str
  iss : Str
  aud : Str
  iat : Nat
  exp : Nat
deriving DecidableEq, Repr

/-- Serialisation of the claims object into the payload segment. -/
def bodyEnc (t : TokenPayload) : List Byte :=
  strBytes t.id ++ Byte.sep ::
  (strBytes t.email ++ Byte.sep ::
  (optBytes t.name ++ Byte.sep ::
  (optBytes t.picture ++ Byte.sep ::
  (strBytes t.domain ++ Byte.sep ::
  (strBytes t.iss ++ Byte.sep ::
  (strBytes t.aud ++ Byte.sep ::
  (natBytes t.iat ++ Byte.sep :: natBytes t.exp)))))))

/-- Decode a segment of raw bytes back into a string. -/
def charsOf : List Byte → Option Str
  | [] => some []
  | Byte.raw c :: r => (charsOf r).map (c :: ·)
  | _ => none

/-- Decode an optional-string claim. -/
def optDec : List Byte → Option (Option Str)
  | [] => some none
  | Byte.raw 'S' :: r => (charsOf r).map some
  | _ => none

/-- Decode a numeric claim. -/
def natDec (l : List Byte) : Option Nat :=
  if l.all (· = Byte.raw 'x') then some l.length else none

/-- Deserialisation of the payload segment (the payload-decoding half of
`jwt.verify` / `jwt.decode`). -/
def bodyDec (l : List Byte) : Option TokenPayload :=
  match splitOnByte Byte.sep l with
  | [i, e, n, p, d, is, au, ia, ex] =>
    match charsOf i, charsOf e, optDec n, optDec p, charsOf d,
          charsOf is, charsOf au, natDec ia, natDec ex with
    | some i', some e', some n', some p', some d',
      some is', some au', some ia', some ex' =>
      some ⟨i', e', n', p', d', is', au', ia', ex'⟩
    | _, _, _, _, _, _, _, _, _ => none
  | _ => none

/-- `jwt.sign`: assemble `header.payload.signature`. -/
def signBytes (secret : Str) (t : TokenPayload) : List Byte :=
  headerBytes ++ Byte.dot ::
    (bodyEnc t ++ Byte.dot :: mac secret (headerBytes ++ Byte.dot :: bodyEnc t))

/-- The authentication configuration consumed by the services
(`config.jwt.secret`, `config.jwt.expiresIn` in seconds,
`config.auth.allowedDomain`, `config.server.frontendUrl`). -/
structure AuthConfig where
  secret : Str
  expiresIn : Nat
  allowedDomain : Str
  frontendUrl : Str
deriving DecidableEq, Repr

/-- A structured JavaScript error object: `message`, ad hoc `code` and
`statusCode` fields, and the extra `userDomain` / `allowedDomain` fields
carried by domain-restriction errors.  An error thrown without a `code`
(plain `new Error(msg)`) is modelled with `code = ""` and
`statusCode = 0`, matching JavaScript falsiness of `undefined`. -/
structure JsError where
  code : Str
  statusCode : Nat
  message : Str
  userDomain : Option Str
  allowedDomain : Option Str
deriving DecidableEq, Repr

/-- A plain structured error with no domain fields. -/
def mkErr (code : String) (statusCode : Nat) (message : String) : JsError :=
  ⟨code.toList, statusCode, message.toList, none, none⟩

/-- The identity payload passed to `generateToken` (a Google profile or a
decoded token minus the protocol claims).  A caller-supplied `domain`
field may be present; `generateToken` never reads it. -/
structure InputPayload where
  id : Str
  email : Str
  name : Option Str
  picture : Option Str
  domain : Option Str
deriving DecidableEq, Repr

/-- JavaScript `email.split('@')[1]`: the text between the first `'@'`
and the following `'@'` (or the end of the string). -/
def splitAtOne (email : Str) : Str :=
  ((email.dropWhile (· ≠ '@')).drop 1).takeWhile (· ≠ '@')

namespace JWTService

/-- `extractDomain` of `jwtService.js`: throws `'Invalid email format'`
when the email is falsy or has no `'@'`, else returns
`email.split('@')[1]`. -/
def extractDomain (email : Str) : Except Str Str :=
  if email = [] ∨ '@' ∉ email then
    .error "Invalid email format".toList
  else
    .ok (splitAtOne email)

/-- `validateEmailDomain` of `jwtService.js`.  Returns `false` for a
falsy email, otherwise compares `extractDomain(email)` with the allowed
domain case-insensitively; note the `extractDomain` throw propagates
(there is no try/catch in this method). -/
def validateEmailDomain (cfg : AuthConfig) (email : Str) : Except Str Bool :=
  if email = [] then
    .ok false
  else
    match extractDomain email with
    | .error m => .error m
    | .ok d =>
      .ok (decide (d.map Char.toLower = cfg.allowedDomain.map Char.toLower))

/-- `generateToken(payload, expiresIn)` of `jwtService.js`, with the
signing clock `now` (epoch seconds) made explicit.  The catch-all of the
source fills in `code = 'TOKEN_GENERATION_ERROR'` / `statusCode = 500`
for errors thrown without those fields (the `extractDomain` throw). -/
def generateToken (cfg : AuthConfig) (now : Nat) (payload : InputPayload)
    (expiresIn : Option Nat) : Except JsError (List Byte) :=
  if payload.id = [] ∨ payload.email = [] then
    .error (mkErr "MISSING_REQUIRED_FIELDS" 400 "Token payload must include id and email")
  else
    match validateEmailDomain cfg payload.email with
    | .error m => .error ⟨"TOKEN_GENERATION_ERROR".toList, 500, m, none, none⟩
    | .ok false => .error (mkErr "INVALID_DOMAIN" 403 "Invalid email domain for token generation")
    | .ok true =>
      .ok (signBytes cfg.secret
        { id := payload.id
          email := payload.email
          name := payload.name
          picture := payload.picture
          domain := splitAtOne payload.email
          iss := "warehouse-api".toList
          aud := "warehouse-frontend".toList
          iat := now
          exp := now + expiresIn.getD cfg.expiresIn })

/-- The `'Bearer '` scheme mark stripped by `verifyToken`. -/
def bearerMark : List Byte := strBytes "Bearer ".toList

/-- Is a token byte a whitespace character (for the `cleanToken.trim()`
emptiness test)? -/
def byteIsWs : Byte → Bool
  | Byte.raw c => c.isWhitespace
  | _ => false

/-- `verifyToken(token)` of `jwtService.js`, with the verification clock
`now` made explicit.  The inner `jwt.verify` call is modelled after
`jsonwebtoken`: split into exactly three segments, check the protected
header, check the signature over `header.payload`, decode the payload,
then check `exp` (expired iff `now ≥ exp`), audience and issuer; its
failures map through `getJWTErrorCode` / `getJWTErrorMessage`
(`TokenExpiredError → TOKEN_EXPIRED` 401, every other
`JsonWebTokenError → INVALID_TOKEN` 400).  The trailing domain
re-validation throw (email with no `'@'`) is caught by the outer
catch-all as `TOKEN_VERIFICATION_ERROR` 400. -/
def verifyToken (cfg : AuthConfig) (now : Nat) (token : List Byte) :
    Except JsError TokenPayload :=
  if token = [] then
    .error (mkErr "INVALID_TOKEN_FORMAT" 400 "Token must be a valid string")
  else
    let cleanToken := if bearerMark.isPrefixOf token then token.drop 7 else token
    if cleanToken.all byteIsWs then
      .error (mkErr "EMPTY_TOKEN" 400 "Token cannot be empty")
    else
      match splitOnByte Byte.dot cleanToken with
      | [h, b, s] =>
        if h ≠ headerBytes then
          .error (mkErr "INVALID_TOKEN" 400 "Invalid authentication token. Please sign in again.")
        else if s ≠ mac cfg.secret (h ++ Byte.dot :: b) then
          .error (mkErr "INVALID_TOKEN" 400 "Invalid authentication token. Please sign in again.")
        else
          match bodyDec b with
          | none =>
            .error (mkErr "INVALID_TOKEN" 400 "Invalid authentication token. Please sign in again.")
          | some decoded =>
            if now ≥ decoded.exp then
              .error (mkErr "TOKEN_EXPIRED" 401 "Your session has expired. Please sign in again.")
            else if decoded.aud ≠ "warehouse-frontend".toList then
              .error (mkErr "INVALID_TOKEN" 400 "Invalid authentication token. Please sign in again.")
            else if decoded.iss ≠ "warehouse-api".toList then
              .error (mkErr "INVALID_TOKEN" 400 "Invalid authentication token. Please sign in again.")
            else if decoded.id = [] ∨ decoded.email = [] then
              .error (mkErr "INVALID_TOKEN_PAYLOAD" 400 "Token payload is missing required fields")
            else
              match validateEmailDomain cfg decoded.email with
              | .error m => .error ⟨"TOKEN_VERIFICATION_ERROR".toList, 400, m, none, none⟩
              | .ok false => .error (mkErr "INVALID_DOMAIN" 403 "Token contains invalid email domain")
              | .ok true => .ok decoded
      | _ =>
        .error (mkErr "INVALID_TOKEN" 400 "Invalid authentication token. Please sign in again.")

/-- `refreshToken(token)` of `jwtService.js`: verify, strip the
protocol-reserved claims (`iat`, `exp`, `iss`, `aud`), re-issue.
Structured errors (truthy `code` and `statusCode`) pass through
unchanged; unstructured ones would be wrapped as `TOKEN_REFRESH_ERROR`. -/
def refreshToken (cfg : AuthConfig) (now : Nat) (token : List Byte) :
    Except JsError (List Byte) :=
  match verifyToken cfg now token with
  | .error e =>
    if e.code ≠ [] ∧ e.statusCode ≠ 0 then
      .error e
    else
      .error ⟨"TOKEN_REFRESH_ERROR".toList, 400,
        ("Token refresh failed: ".toList ++ e.message), none, none⟩
  | .ok decoded =>
    match generateToken cfg now
        { id := decoded.id, email := decoded.email, name := decoded.name,
          picture := decoded.picture, domain := some decoded.domain } none with
    | .error e =>
      if e.code ≠ [] ∧ e.statusCode ≠ 0 then
        .error e
      else
        .error ⟨"TOKEN_REFRESH_ERROR".toList, 400,
          ("Token refresh failed: ".toList ++ e.message), none, none⟩
    | .ok t => .ok t

/-- `decodeToken(token)` of `jwtService.js`: strip the scheme mark and
decode the payload without verification (`jwt.decode` returns `null` on
anything malformed). -/
def decodeToken (token : List Byte) : Option TokenPayload :=
  let cleanToken := if bearerMark.isPrefixOf token then token.drop 7 else token
  match splitOnByte Byte.dot cleanToken with
  | [h, b, _] => if h = headerBytes then bodyDec b else none
  | _ => none

end JWTService

namespace GoogleOAuthService

/-- The profile JSON Google returns from the userinfo endpoint, as parsed
by `getUserProfile`; absent or empty fields are falsy. -/
structure GoogleProfileData where
  id : Str
  email : Str
  name : Option Str
  picture : Option Str
  verified_email : Option Bool
  locale : Option Str
deriving DecidableEq, Repr

/-- The profile object `getUserProfile` returns to its callers. -/
structure UserProfile where
  id : Str
  email : Str
  name : Str
  picture : Str
  verified_email : Bool
  locale : Str
deriving DecidableEq, Repr

/-- `extractDomain` of `googleOAuthService.js`: throws on a falsy email,
a missing `'@'`, or a malformed domain (`split('@')` not yielding exactly
two parts with a non-empty second part). -/
def extractDomain (email : Str) : Except Str Str :=
  if email = [] then
    .error "Email must be a valid string".toList
  else if '@' ∉ email then
    .error "Invalid email format: missing @ symbol".toList
  else if email.count '@' ≠ 1 ∨ splitAtOne email = [] then
    .error "Invalid email format: malformed domain".toList
  else
    .ok (splitAtOne email)

/-- `validateDomain` of `googleOAuthService.js`: case-insensitive
comparison against the allowed domain; its try/catch turns any
`extractDomain` throw into `false`. -/
def validateDomain (cfg : AuthConfig) (email : Str) : Bool :=
  if email = [] then
    false
  else
    match extractDomain email with
    | .error _ => false
    | .ok d => decide (d.map Char.toLower = cfg.allowedDomain.map Char.toLower)

/-- The post-fetch half of `getUserProfile` of `googleOAuthService.js`:
everything the method does to a successfully fetched, parsed profile
body — required-field validation, the domain gate, and the shaping of the
returned profile.  (The HTTP fetch itself is effectful and is represented
by handing this function the parsed profile data.)  The second
`extractDomain` call in the restricted branch is outside any local
try/catch, so its throw reaches the method's catch-all, which stamps
`PROFILE_RETRIEVAL_ERROR` / 500 on code-less errors. -/
def getUserProfile (cfg : AuthConfig) (profileData : GoogleProfileData) :
    Except JsError UserProfile :=
  if profileData.id = [] ∨ profileData.email = [] then
    .error (mkErr "INCOMPLETE_PROFILE_DATA" 502
      "Invalid profile response: missing required fields (id, email)")
  else if ¬ validateDomain cfg profileData.email then
    match extractDomain profileData.email with
    | .error m => .error ⟨"PROFILE_RETRIEVAL_ERROR".toList, 500, m, none, none⟩
    | .ok domain =>
      .error ⟨"DOMAIN_RESTRICTED".toList, 403,
        ("Access restricted to @".toList ++ cfg.allowedDomain ++
          " accounts. Found: @".toList ++ domain),
        some domain, some cfg.allowedDomain⟩
  else
    .ok { id := profileData.id
          email := profileData.email
          name := profileData.name.getD []
          picture := profileData.picture.getD []
          verified_email := profileData.verified_email.getD false
          locale := (profileData.locale.getD "en".toList) }

end GoogleOAuthService

namespace AuthMiddleware

/-- The request-scoped identity context (`req.user`) attached by the
middleware. -/
structure AuthedUser where
  id : Str
  email : Str
  name : Option Str
  picture : Option Str
  domain : Str
  isAuthenticated : Bool
deriving DecidableEq, Repr

/-- The token metadata (`req.tokenInfo`) attached alongside it. -/
structure TokenInfo where
  token : List Byte
  issuedAt : Nat
  expiresAt : Nat
deriving DecidableEq, Repr

/-- The observable outcome of a middleware invocation: either the request
proceeds (`next`) with the identity context and token metadata that were
attached to it, or a JSON error response `{error, code}` is sent with the
given HTTP status. -/
inductive MwResult where
  | next (user : Option AuthedUser) (tokenInfo : Option TokenInfo)
  | respond (status : Nat) (code : Str) (message : Str)
deriving DecidableEq, Repr

/-- `extractTokenFromHeader` of `auth.js`: a falsy header yields `null`;
a `'Bearer '`-prefixed header yields the remainder; a space-free header
is taken as a bare token; anything else yields `null`. -/
def extractTokenFromHeader (authHeader : Option (List Byte)) : Option (List Byte) :=
  match authHeader with
  | none => none
  | some hdr =>
    if hdr = [] then none
    else if JWTService.bearerMark.isPrefixOf hdr then some (hdr.drop 7)
    else if ¬ hdr.contains (Byte.raw ' ') then some hdr
    else none

/-- `handleAuthenticationError` of `auth.js`: the switch mapping a
service error to an HTTP response.  Every branch responds through
`sendUnauthorizedResponse` (status 401) except `INVALID_DOMAIN`, which
responds through `sendForbiddenResponse` (status 403); in the default
branch the computed `statusCode` only selects the message, while the
response status is the hard-coded 401 of `sendUnauthorizedResponse`. -/
def handleAuthenticationError (e : JsError) : MwResult :=
  if e.code = "TOKEN_EXPIRED".toList then
    .respond 401 "TOKEN_EXPIRED".toList "Your session has expired. Please sign in again.".toList
  else if e.code = "INVALID_TOKEN".toList ∨ e.code = "INVALID_TOKEN_FORMAT".toList ∨
      e.code = "INVALID_TOKEN_PAYLOAD".toList then
    .respond 401 "INVALID_TOKEN".toList "Invalid authentication token. Please sign in again.".toList
  else if e.code = "EMPTY_TOKEN".toList then
    .respond 401 "MISSING_TOKEN".toList "Authentication token is required.".toList
  else if e.code = "INVALID_DOMAIN".toList then
    .respond 403 "DOMAIN_RESTRICTED".toList "Access restricted to authorized domains.".toList
  else if e.code = "TOKEN_NOT_ACTIVE".toList then
    .respond 401 "TOKEN_NOT_ACTIVE".toList "Authentication token is not yet valid.".toList
  else
    let statusCode := if e.statusCode = 0 then 401 else e.statusCode
    let message :=
      if statusCode ≥ 500 then "Authentication service error. Please try again.".toList
      else if e.message = [] then "Authentication failed".toList
      else e.message
    .respond 401 "AUTH_FAILED".toList message

/-- `authenticateJWT` of `auth.js`: extract, verify, attach or reject.
A missing (or falsy) extracted token is rejected through
`sendUnauthorizedResponse` with its default code `'UNAUTHORIZED'`. -/
def authenticateJWT (cfg : AuthConfig) (now : Nat)
    (authHeader : Option (List Byte)) : MwResult :=
  match extractTokenFromHeader authHeader with
  | none => .respond 401 "UNAUTHORIZED".toList "No authentication token provided".toList
  | some token =>
    if token = [] then
      .respond 401 "UNAUTHORIZED".toList "No authentication token provided".toList
    else
      match JWTService.verifyToken cfg now token with
      | .error e => handleAuthenticationError e
      | .ok userPayload =>
        .next
          (some { id := userPayload.id, email := userPayload.email,
                  name := userPayload.name, picture := userPayload.picture,
                  domain := userPayload.domain, isAuthenticated := true })
          (some { token := token, issuedAt := userPayload.iat,
                  expiresAt := userPayload.exp })

/-- `optionalAuthentication` of `auth.js`: same extraction and
verification, but every failure sets `req.user = null` and lets the
request proceed. -/
def optionalAuthentication (cfg : AuthConfig) (now : Nat)
    (authHeader : Option (List Byte)) : MwResult :=
  match extractTokenFromHeader authHeader with
  | none => .next none none
  | some token =>
    if token = [] then
      .next none none
    else
      match JWTService.verifyToken cfg now token with
      | .error _ => .next none none
      | .ok userPayload =>
        .next
          (some { id := userPayload.id, email := userPayload.email,
                  name := userPayload.name, picture := userPayload.picture,
                  domain := userPayload.domain, isAuthenticated := true })
          (some { token := token, issuedAt := userPayload.iat,
                  expiresAt := userPayload.exp })

end AuthMiddleware

namespace AuthController

/-- The query parameters of the OAuth callback request. -/
structure Query where
  code : Option Str
  error : Option Str
  error_description : Option Str
  state : Option Str
deriving DecidableEq, Repr

/-- JavaScript truthiness of an optional string query parameter. -/
def truthy (o : Option Str) : Bool :=
  match o with
  | some s => ¬ s.isEmpty
  | none => false

/-- The public user fields embedded in the success redirect. -/
structure RedirectUser where
  id : Str
  email : Str
  name : Str
  picture : Str
  domain : Str
deriving DecidableEq, Repr

/-- What a callback redirect carries back to the front end. -/
inductive RedirectPayload where
  | errMsg (msg : Str)
  | tokenUser (token : List Byte) (user : RedirectUser)
deriving DecidableEq, Repr

/-- The observable HTTP response of a controller handler: a redirect to a
base URL carrying a payload, or a JSON body with a status. -/
inductive CtrlResponse where
  | redirect (base : Str) (payload : RedirectPayload)
  | json (status : Nat) (message : Str) (code : Str)
deriving DecidableEq, Repr

/-- The fixed dictionary of `getOAuthErrorMessage`. -/
def oauthErrorMessages : List (Str × Str) :=
  [("access_denied".toList, "You cancelled the sign-in process. Please try again to access the application.".toList),
   ("invalid_request".toList, "Invalid authentication request. Please try signing in again.".toList),
   ("unauthorized_client".toList, "Authentication service configuration error. Please contact support.".toList),
   ("unsupported_response_type".toList, "Authentication service configuration error. Please contact support.".toList),
   ("invalid_scope".toList, "Authentication service configuration error. Please contact support.".toList),
   ("server_error".toList, "Google authentication service is temporarily unavailable. Please try again.".toList),
   ("temporarily_unavailable".toList, "Google authentication service is temporarily unavailable. Please try again.".toList)]

/-- `getOAuthErrorMessage` of the controller:
`errorMessages[error] || errorDescription || 'Authentication failed. Please try again.'`. -/
def getOAuthErrorMessage (error : Str) (errorDescription : Option Str) : Str :=
  match oauthErrorMessages.lookup error with
  | some m => m
  | none =>
    if truthy errorDescription then errorDescription.getD []
    else "Authentication failed. Please try again.".toList

/-- `handleOAuthCallback` of the controller.  The effectful
`completeOAuthFlow` (code exchange plus profile fetch) is passed in as
`flow`; everything after it — token issuance, user-data shaping, every
redirect, and the catch-all that redirects with `error.message ||
'Authentication failed'` — follows the source. -/
def handleOAuthCallback (cfg : AuthConfig) (now : Nat)
    (flow : Str → Except JsError GoogleOAuthService.UserProfile)
    (q : Query) : CtrlResponse :=
  if truthy q.error then
    .redirect cfg.frontendUrl (.errMsg (getOAuthErrorMessage (q.error.getD []) q.error_description))
  else if ¬ truthy q.code then
    .redirect cfg.frontendUrl (.errMsg "Authorization code is required".toList)
  else
    match flow (q.code.getD []) with
    | .error e =>
      .redirect cfg.frontendUrl
        (.errMsg (if e.message = [] then "Authentication failed".toList else e.message))
    | .ok user =>
      match JWTService.generateToken cfg now
          { id := user.id, email := user.email, name := some user.name,
            picture := some user.picture, domain := none } none with
      | .error e =>
        .redirect cfg.frontendUrl
          (.errMsg (if e.message = [] then "Authentication failed".toList else e.message))
      | .ok jwtToken =>
        match JWTService.extractDomain user.email with
        | .error m =>
          .redirect cfg.frontendUrl
            (.errMsg (if m = [] then "Authentication failed".toList else m))
        | .ok domain =>
          .redirect cfg.frontendUrl
            (.tokenUser jwtToken
              { id := user.id, email := user.email, name := user.name,
                picture := user.picture, domain := domain })

end AuthController

/-! ### Concrete instances used in witnesses and counterexamples -/

/-- A concrete configuration: a signing secret, a 5-second token TTL,
allowed domain `wareongo.com` (the repository default), and a front-end
URL. -/
def cfgW : AuthConfig :=
  ⟨"test-signing-secret".toList, 5, "wareongo.com".toList,
   "http://localhost:3000".toList⟩

/-- A concrete identity payload on the allowed domain. -/
def payloadW : InputPayload :=
  ⟨"1".toList, "a@wareongo.com".toList, some "Alice".toList, none, none⟩

/-- The token issued for `payloadW` at time 0. -/
def tokenW : List Byte :=
  (JWTService.generateToken cfgW 0 payloadW none).toOption.getD []

/-- The token obtained by refreshing `tokenW` at time 0 (the instant of
its issuance). -/
def refreshedW : List Byte :=
  (JWTService.refreshToken cfgW 0 tokenW).toOption.getD []

/-! ### Serialisation lemmas -/

theorem not_mem_strBytes (t : Byte) (h : ∀ c, t ≠ Byte.raw c) (s : Str) :
    t ∉ strBytes s := by
  intro hmem
  rcases List.mem_map.mp hmem with ⟨c, _, hc⟩
  exact h c hc.symm

theorem dot_not_mem_strBytes (s : Str) : Byte.dot ∉ strBytes s :=
  not_mem_strBytes _ (by intro c h; cases h) s

theorem sep_not_mem_strBytes (s : Str) : Byte.sep ∉ strBytes s :=
  not_mem_strBytes _ (by intro c h; cases h) s

theorem not_mem_sigEnc (t : Byte) (h : ∀ c, t ≠ Byte.raw c) (l : List Byte) :
    t ∉ sigEnc l := by
  induction l with
  | nil => simp [sigEnc]
  | cons b r ih =>
    intro hmem
    cases b <;> rcases List.mem_cons.mp hmem with h1 | h1 <;>
      first
        | exact h _ h1
        | rcases List.mem_cons.mp h1 with h2 | h2 <;>
            first
              | exact h _ h2
              | exact ih h2

theorem dot_not_mem_mac (secret : Str) (msg : List Byte) :
    Byte.dot ∉ mac secret msg := by
  intro hmem
  rcases List.mem_append.mp hmem with h | h
  · exact dot_not_mem_strBytes _ h
  · exact not_mem_sigEnc _ (by intro c hc; cases hc) _ h

theorem dot_not_mem_optBytes (o : Option Str) : Byte.dot ∉ optBytes o := by
  cases o with
  | none => simp [optBytes]
  | some s =>
    intro hmem
    rcases List.mem_cons.mp hmem with h | h
    · cases h
    · exact dot_not_mem_strBytes s h

theorem sep_not_mem_optBytes (o : Option Str) : Byte.sep ∉ optBytes o := by
  cases o with
  | none => simp [optBytes]
  | some s =>
    intro hmem
    rcases List.mem_cons.mp hmem with h | h
    · cases h
    · exact sep_not_mem_strBytes s h

theorem dot_not_mem_natBytes (n : Nat) : Byte.dot ∉ natBytes n := by
  intro hmem
  exact absurd (List.eq_of_mem_replicate hmem) (by intro hc; cases hc)

theorem sep_not_mem_natBytes (n : Nat) : Byte.sep ∉ natBytes n := by
  intro hmem
  exact absurd (List.eq_of_mem_replicate hmem) (by intro hc; cases hc)

theorem dot_not_mem_bodyEnc (t : TokenPayload) : Byte.dot ∉ bodyEnc t := by
  intro hmem
  simp only [bodyEnc, List.mem_append, List.mem_cons] at hmem
  rcases hmem with h | h | h | h | h | h | h | h | h | h | h | h | h | h | h | h | h <;>
    first
      | cases h
      | exact dot_not_mem_strBytes _ h
      | exact dot_not_mem_optBytes _ h
      | exact dot_not_mem_natBytes _ h

theorem dot_not_mem_headerBytes : Byte.dot ∉ headerBytes := by decide

/-! ### Splitting lemmas -/

theorem splitOnByte_ne_nil (t : Byte) (l : List Byte) : splitOnByte t l ≠ [] := by
  induction l with
  | nil => simp [splitOnByte]
  | cons x r ih =>
    by_cases hx : x = t
    · simp [splitOnByte, hx]
    · simp only [splitOnByte, if_neg hx]
      rcases h : splitOnByte t r with _ | ⟨s, ss⟩
      · simp
      · simp

theorem splitOnByte_of_not_mem (t : Byte) (a : List Byte) (h : t ∉ a) :
    splitOnByte t a = [a] := by
  induction a with
  | nil => rfl
  | cons x r ih =>
    simp only [List.mem_cons, not_or] at h
    have hx : ¬ x = t := fun hh => h.1 hh.symm
    simp [splitOnByte, hx, ih h.2]

theorem splitOnByte_append (t : Byte) (a r : List Byte) (h : t ∉ a) :
    splitOnByte t (a ++ t :: r) = a :: splitOnByte t r := by
  induction a with
  | nil => simp [splitOnByte]
  | cons x xs ih =>
    simp only [List.mem_cons, not_or] at h
    have hx : ¬ x = t := fun hh => h.1 hh.symm
    rcases hs : splitOnByte t (xs ++ t :: r) with _ | ⟨s, ss⟩
    · exact absurd hs (splitOnByte_ne_nil t _)
    · have := ih h.2
      rw [hs] at this
      simp only [List.cons_append, splitOnByte, if_neg hx]
      rw [List.cons.injEq] at this
      rw [show xs ++ t :: r = List.append xs (t :: r) from rfl] at hs
      rw [hs]
      simp [this.1, this.2]

theorem charsOf_strBytes (s : Str) : charsOf (strBytes s) = some s := by
  induction s with
  | nil => rfl
  | cons c r ih => simp [strBytes, charsOf] at ih ⊢; simp [ih]

theorem optDec_optBytes (o : Option Str) : optDec (optBytes o) = some o := by
  cases o with
  | none => rfl
  | some s => simp [optBytes, optDec, charsOf_strBytes]

theorem natDec_natBytes (n : Nat) : natDec (natBytes n) = some n := by
  have hall : (natBytes n).all (· = Byte.raw 'x') = true := by
    rw [List.all_eq_true]
    intro b hb
    simp [List.eq_of_mem_replicate hb]
  simp [natDec, hall, natBytes]

theorem splitSep_bodyEnc (t : TokenPayload) :
    splitOnByte Byte.sep (bodyEnc t) =
      [strBytes t.id, strBytes t.email, optBytes t.name, optBytes t.picture,
       strBytes t.domain, strBytes t.iss, strBytes t.aud,
       natBytes t.iat, natBytes t.exp] := by
  simp only [bodyEnc]
  rw [splitOnByte_append _ _ _ (sep_not_mem_strBytes _),
      splitOnByte_append _ _ _ (sep_not_mem_strBytes _),
      splitOnByte_append _ _ _ (sep_not_mem_optBytes _),
      splitOnByte_append _ _ _ (sep_not_mem_optBytes _),
      splitOnByte_append _ _ _ (sep_not_mem_strBytes _),
      splitOnByte_append _ _ _ (sep_not_mem_strBytes _),
      splitOnByte_append _ _ _ (sep_not_mem_strBytes _),
      splitOnByte_append _ _ _ (sep_not_mem_natBytes _),
      splitOnByte_of_not_mem _ _ (sep_not_mem_natBytes _)]

theorem bodyDec_bodyEnc (t : TokenPayload) : bodyDec (bodyEnc t) = some t := by
  simp [bodyDec, splitSep_bodyEnc, charsOf_strBytes, optDec_optBytes, natDec_natBytes]

/-! ### MAC injectivity -/

theorem sigEnc_inj (a : List Byte) : ∀ b, sigEnc a = sigEnc b → a = b := by
  induction a with
  | nil =>
    intro b hb
    cases b with
    | nil => rfl
    | cons y r => cases y <;> simp [sigEnc] at hb
  | cons x xs ih =>
    intro b hb
    cases b with
    | nil => cases x <;> simp [sigEnc] at hb
    | cons y r =>
      cases x <;> cases y <;> simp [sigEnc] at hb <;>
        first
          | (rw [hb.1, ih _ hb.2])
          | (rw [ih _ hb])

theorem mac_inj (secret : Str) (m1 m2 : List Byte) (h : mac secret m1 = mac secret m2) :
    m1 = m2 :=
  sigEnc_inj _ _ (List.append_cancel_left h)

/-! ### Bearer-mark and tampering helpers -/

theorem set_ne_self (l : List Byte) (i : Nat) (y : Byte) (hi : i < l.length)
    (hy : y ≠ getElem l i hi) : l.set i y ≠ l := by
  intro h
  have h2 : getElem (l.set i y) i (by simpa using hi) = y := List.getElem_set_self _
  simp only [h] at h2
  exact hy h2.symm

theorem bearer_not_prefix_append (rest : List Byte) :
    ¬ JWTService.bearerMark <+: (headerBytes ++ rest) := by
  intro hp
  have h0 := hp.getElem (show 0 < JWTService.bearerMark.length by decide)
  rw [List.getElem_append_left (show 0 < headerBytes.length by decide)] at h0
  exact absurd h0 (by decide)

theorem bearer_not_prefix_set (i : Nat) (y : Byte) (rest : List Byte) :
    ¬ JWTService.bearerMark <+: ((headerBytes ++ rest).set i y) := by
  intro hp
  have hlen : (headerBytes ++ rest).length = 36 + rest.length := by
    simp [headerBytes, strBytes]
    omega
  by_cases hi : i = 0
  · subst hi
    have h1 := hp.getElem (show 1 < JWTService.bearerMark.length by decide)
    rw [List.getElem_set_ne (by omega)] at h1
    rw [List.getElem_append_left (show 1 < headerBytes.length by decide)] at h1
    exact absurd h1 (by decide)
  · have h0 := hp.getElem (show 0 < JWTService.bearerMark.length by decide)
    rw [List.getElem_set_ne (by omega)] at h0
    rw [List.getElem_append_left (show 0 < headerBytes.length by decide)] at h0
    exact absurd h0 (by decide)

theorem not_all_ws_of_dot_mem (l : List Byte) (h : Byte.dot ∈ l) :
    l.all JWTService.byteIsWs = false := by
  rw [Bool.eq_false_iff]
  intro hall
  have := List.all_eq_true.mp hall Byte.dot h
  simp [JWTService.byteIsWs] at this

/-! ### The three segments of a signed token -/

theorem splitDot_signBytes (secret : Str) (t : TokenPayload) :
    splitOnByte Byte.dot (signBytes secret t) =
      [headerBytes, bodyEnc t, mac secret (headerBytes ++ Byte.dot :: bodyEnc t)] := by
  rw [signBytes,
      splitOnByte_append _ _ _ dot_not_mem_headerBytes,
      splitOnByte_append _ _ _ (dot_not_mem_bodyEnc t),
      splitOnByte_of_not_mem _ _ (dot_not_mem_mac _ _)]

theorem signBytes_ne_nil (secret : Str) (t : TokenPayload) :
    signBytes secret t ≠ [] := by
  rw [signBytes]
  intro h
  have := congrArg List.length h
  simp [headerBytes, strBytes] at this

theorem dot_mem_signBytes (secret : Str) (t : TokenPayload) :
    Byte.dot ∈ signBytes secret t := by
  rw [signBytes]
  exact List.mem_append.mpr (Or.inr (List.mem_cons_self _ _))

/-! ### Characterisation of issue and verify on honestly issued tokens -/

theorem generateToken_ok (cfg : AuthConfig) (now : Nat) (p : InputPayload)
    (expiresIn : Option Nat)
    (hid : p.id ≠ []) (hem : p.email ≠ []) (hat : '@' ∈ p.email)
    (hdom : (splitAtOne p.email).map Char.toLower = cfg.allowedDomain.map Char.toLower) :
    JWTService.generateToken cfg now p expiresIn =
      Except.ok (signBytes cfg.secret
        { id := p.id, email := p.email, name := p.name, picture := p.picture,
          domain := splitAtOne p.email, iss := "warehouse-api".toList,
          aud := "warehouse-frontend".toList, iat := now,
          exp := now + expiresIn.getD cfg.expiresIn }) := by
  rw [JWTService.generateToken]
  rw [if_neg (by simp [hid, hem])]
  rw [JWTService.validateEmailDomain, if_neg hem,
      JWTService.extractDomain, if_neg (by simp [hem, hat])]
  simp [hdom]

theorem verifyToken_signBytes (cfg : AuthConfig) (tv : Nat) (tp : TokenPayload)
    (hexp : tv < tp.exp)
    (haud : tp.aud = "warehouse-frontend".toList)
    (hiss : tp.iss = "warehouse-api".toList)
    (hid : tp.id ≠ []) (hem : tp.email ≠ []) (hat : '@' ∈ tp.email)
    (hdom : (splitAtOne tp.email).map Char.toLower = cfg.allowedDomain.map Char.toLower) :
    JWTService.verifyToken cfg tv (signBytes cfg.secret tp) = Except.ok tp := by
  rw [JWTService.verifyToken]
  rw [if_neg (signBytes_ne_nil _ _)]
  have hnb : JWTService.bearerMark.isPrefixOf (signBytes cfg.secret tp) = false := by
    rw [Bool.eq_false_iff]
    intro hc
    exact bearer_not_prefix_append _ (List.isPrefixOf_iff_prefix.mp (by rw [← signBytes]; exact hc))
  simp only [hnb, Bool.false_eq_true, if_false]
  rw [if_neg (by simp [not_all_ws_of_dot_mem _ (dot_mem_signBytes cfg.secret tp)])]
  rw [splitDot_signBytes]
  have hnexp : ¬ tv ≥ tp.exp := by omega
  simp only [ne_eq, not_true_eq_false, if_false, ite_not, bodyDec_bodyEnc, hnexp,
    haud, hiss, if_true]
  rw [if_neg (by simp [hid, hem])]
  rw [JWTService.validateEmailDomain, if_neg hem,
      JWTService.extractDomain, if_neg (by simp [hem, hat])]
  simp [hdom]

/-! ### Index arithmetic helpers -/

theorem set_append_right_at {α : Type} (a b : List α) (k : Nat) (y : α) :
    (a ++ b).set (a.length + k) y = a ++ b.set k y := by
  rw [List.set_append_right _ _ (Nat.le_add_right _ _)]
  simp

theorem getElem_append_right_at {α : Type} (a b : List α) (j : Nat) (hj : j < b.length)
    (hi : a.length + j < (a ++ b).length) :
    getElem (a ++ b) (a.length + j) hi = getElem b j hj := by
  rw [List.getElem_append_right (Nat.le_add_right _ _)]
  congr 1
  omega

/-! ### Error paths of verifyToken -/

theorem verifyToken_eq_error_of_malformed (cfg : AuthConfig) (tv : Nat) (T : List Byte)
    (hne : T ≠ []) (hnb : ¬ JWTService.bearerMark <+: T) (hdm : Byte.dot ∈ T)
    (segs : List (List Byte)) (hsplit : splitOnByte Byte.dot T = segs)
    (h3 : segs.length ≠ 3) :
    JWTService.verifyToken cfg tv T =
      Except.error (mkErr "INVALID_TOKEN" 400
        "Invalid authentication token. Please sign in again.") := by
  rw [JWTService.verifyToken, if_neg hne]
  have hnb' : JWTService.bearerMark.isPrefixOf T = false := by
    rw [Bool.eq_false_iff]
    intro hc
    exact hnb (List.isPrefixOf_iff_prefix.mp hc)
  simp only [hnb', Bool.false_eq_true, if_false]
  rw [if_neg (by simp [not_all_ws_of_dot_mem _ hdm])]
  rw [hsplit]
  rcases segs with _ | ⟨a, _ | ⟨b, _ | ⟨c, _ | ⟨d, r⟩⟩⟩⟩
  · rfl
  · rfl
  · rfl
  · simp at h3
  · rfl

theorem verifyToken_eq_error_of_badHeader (cfg : AuthConfig) (tv : Nat) (T : List Byte)
    (hne : T ≠ []) (hnb : ¬ JWTService.bearerMark <+: T) (hdm : Byte.dot ∈ T)
    (h b s : List Byte) (hsplit : splitOnByte Byte.dot T = [h, b, s])
    (hh : h ≠ headerBytes) :
    JWTService.verifyToken cfg tv T =
      Except.error (mkErr "INVALID_TOKEN" 400
        "Invalid authentication token. Please sign in again.") := by
  rw [JWTService.verifyToken, if_neg hne]
  have hnb' : JWTService.bearerMark.isPrefixOf T = false := by
    rw [Bool.eq_false_iff]
    intro hc
    exact hnb (List.isPrefixOf_iff_prefix.mp hc)
  simp only [hnb', Bool.false_eq_true, if_false]
  rw [if_neg (by simp [not_all_ws_of_dot_mem _ hdm])]
  simp only [hsplit, ne_eq]
  rw [if_pos hh]

theorem verifyToken_eq_error_of_badSig (cfg : AuthConfig) (tv : Nat) (T : List Byte)
    (hne : T ≠ []) (hnb : ¬ JWTService.bearerMark <+: T) (hdm : Byte.dot ∈ T)
    (b s : List Byte) (hsplit : splitOnByte Byte.dot T = [headerBytes, b, s])
    (hs : s ≠ mac cfg.secret (headerBytes ++ Byte.dot :: b)) :
    JWTService.verifyToken cfg tv T =
      Except.error (mkErr "INVALID_TOKEN" 400
        "Invalid authentication token. Please sign in again.") := by
  rw [JWTService.verifyToken, if_neg hne]
  have hnb' : JWTService.bearerMark.isPrefixOf T = false := by
    rw [Bool.eq_false_iff]
    intro hc
    exact hnb (List.isPrefixOf_iff_prefix.mp hc)
  simp only [hnb', Bool.false_eq_true, if_false]
  rw [if_neg (by simp [not_all_ws_of_dot_mem _ hdm])]
  simp only [hsplit, ne_eq, not_true_eq_false, if_false]
  simp [hs]

theorem getElem_append_length {α : Type} (a b : List α) (x : α)
    (hi : a.length < (a ++ x :: b).length) : getElem (a ++ x :: b) a.length hi = x := by
  rw [List.getElem_append_right (Nat.le_refl _)]
  simp

/-- Central tampering lemma: changing any single byte of a well-formed
signed token (`header ++ '.' ++ body ++ '.' ++ mac`) to a different byte
makes `verifyToken` fail with `INVALID_TOKEN`, at every verification
time. -/
theorem verifyToken_set_tampered (cfg : AuthConfig) (tv : Nat) (Bo S : List Byte)
    (hBo : Byte.dot ∉ Bo) (hS : Byte.dot ∉ S)
    (hmac : S = mac cfg.secret (headerBytes ++ Byte.dot :: Bo))
    (i : Nat) (y : Byte)
    (hi : i < (headerBytes ++ Byte.dot :: (Bo ++ Byte.dot :: S)).length)
    (hy : y ≠ getElem (headerBytes ++ Byte.dot :: (Bo ++ Byte.dot :: S)) i hi) :
    JWTService.verifyToken cfg tv
        ((headerBytes ++ Byte.dot :: (Bo ++ Byte.dot :: S)).set i y) =
      Except.error (mkErr "INVALID_TOKEN" 400
        "Invalid authentication token. Please sign in again.") := by
  have hH : Byte.dot ∉ headerBytes := dot_not_mem_headerBytes
  have hTlen : (headerBytes ++ Byte.dot :: (Bo ++ Byte.dot :: S)).length =
      headerBytes.length + Bo.length + S.length + 2 := by
    simp only [List.length_append, List.length_cons]
    omega
  have hHpos : 0 < headerBytes.length := by decide
  have hi2 := hi
  rw [hTlen] at hi2
  have hne : (headerBytes ++ Byte.dot :: (Bo ++ Byte.dot :: S)).set i y ≠ [] := by
    apply List.ne_nil_of_length_pos
    rw [List.length_set, hTlen]
    omega
  have hnb : ¬ JWTService.bearerMark <+:
      (headerBytes ++ Byte.dot :: (Bo ++ Byte.dot :: S)).set i y :=
    bearer_not_prefix_set i y _
  have hdm : Byte.dot ∈ (headerBytes ++ Byte.dot :: (Bo ++ Byte.dot :: S)).set i y := by
    by_cases hcase : i = headerBytes.length
    · have hj : headerBytes.length + (Bo.length + 1) <
          ((headerBytes ++ Byte.dot :: (Bo ++ Byte.dot :: S)).set i y).length := by
        rw [List.length_set, hTlen]
        omega
      have hval : getElem ((headerBytes ++ Byte.dot :: (Bo ++ Byte.dot :: S)).set i y)
          (headerBytes.length + (Bo.length + 1)) hj = Byte.dot := by
        rw [List.getElem_set_ne (by omega)]
        rw [getElem_append_right_at _ _ _
          (by simp only [List.length_cons, List.length_append]; omega)]
        rw [List.getElem_cons_succ]
        exact getElem_append_length _ _ _
          (by simp only [List.length_append, List.length_cons]; omega)
      have hmem := List.getElem_mem hj
      rw [hval] at hmem
      exact hmem
    · have hj : headerBytes.length <
          ((headerBytes ++ Byte.dot :: (Bo ++ Byte.dot :: S)).set i y).length := by
        rw [List.length_set, hTlen]
        omega
      have hval : getElem ((headerBytes ++ Byte.dot :: (Bo ++ Byte.dot :: S)).set i y)
          headerBytes.length hj = Byte.dot := by
        rw [List.getElem_set_ne (by omega)]
        exact getElem_append_length _ _ _ (by rw [hTlen]; omega)
      have hmem := List.getElem_mem hj
      rw [hval] at hmem
      exact hmem
  have hfree_take : ∀ (l : List Byte) (n : Nat), Byte.dot ∉ l → Byte.dot ∉ l.take n :=
    fun l n hl hmem => hl (List.take_subset n l hmem)
  have hfree_drop : ∀ (l : List Byte) (n : Nat), Byte.dot ∉ l → Byte.dot ∉ l.drop n :=
    fun l n hl hmem => hl (List.drop_subset n l hmem)
  have hfree_set : ∀ (l : List Byte) (n : Nat) (z : Byte),
      Byte.dot ∉ l → z ≠ Byte.dot → Byte.dot ∉ l.set n z := by
    intro l n z hl hz hmem
    rcases List.mem_or_eq_of_mem_set hmem with h | h
    · exact hl h
    · exact hz h.symm
  rcases Nat.lt_or_ge i headerBytes.length with hA | hge
  · -- the change lands in the header segment
    have heq : (headerBytes ++ Byte.dot :: (Bo ++ Byte.dot :: S)).set i y =
        headerBytes.set i y ++ Byte.dot :: (Bo ++ Byte.dot :: S) :=
      List.set_append_left _ _ hA
    have hyH : y ≠ getElem headerBytes i hA := by
      intro hcon
      apply hy
      rw [hcon]
      exact (List.getElem_append_left hA).symm
    by_cases hyd : y = Byte.dot
    · subst hyd
      have heq2 : headerBytes.set i Byte.dot =
          headerBytes.take i ++ Byte.dot :: headerBytes.drop (i+1) := by
        rw [List.set_eq_take_append_cons_drop, if_pos hA]
      have hsplit : splitOnByte Byte.dot
          ((headerBytes ++ Byte.dot :: (Bo ++ Byte.dot :: S)).set i Byte.dot) =
          [headerBytes.take i, headerBytes.drop (i+1), Bo, S] := by
        rw [heq, heq2, List.append_assoc, List.cons_append]
        rw [splitOnByte_append _ _ _ (hfree_take _ _ hH),
            splitOnByte_append _ _ _ (hfree_drop _ _ hH),
            splitOnByte_append _ _ _ hBo,
            splitOnByte_of_not_mem _ _ hS]
      exact verifyToken_eq_error_of_malformed cfg tv _ hne hnb hdm _ hsplit (by simp)
    · have hsplit : splitOnByte Byte.dot
          ((headerBytes ++ Byte.dot :: (Bo ++ Byte.dot :: S)).set i y) =
          [headerBytes.set i y, Bo, S] := by
        rw [heq,
            splitOnByte_append _ _ _ (hfree_set _ _ _ hH hyd),
            splitOnByte_append _ _ _ hBo,
            splitOnByte_of_not_mem _ _ hS]
      exact verifyToken_eq_error_of_badHeader cfg tv _ hne hnb hdm _ _ _ hsplit
        (set_ne_self _ _ _ hA hyH)
  · obtain ⟨k, hk⟩ := Nat.exists_eq_add_of_le hge
    subst hk
    have heqR : (headerBytes ++ Byte.dot :: (Bo ++ Byte.dot :: S)).set
        (headerBytes.length + k) y =
        headerBytes ++ (Byte.dot :: (Bo ++ Byte.dot :: S)).set k y :=
      set_append_right_at _ _ _ _
    cases k with
    | zero =>
      -- the change hits the first separator
      have hyd : y ≠ Byte.dot := by
        intro hcon
        apply hy
        rw [hcon]
        have hval := getElem_append_length headerBytes (Bo ++ Byte.dot :: S) Byte.dot
          (by rw [hTlen]; omega)
        simpa using hval.symm
      have hfree2 : Byte.dot ∉ headerBytes ++ y :: Bo := by
        intro hmem
        rcases List.mem_append.mp hmem with h | h
        · exact hH h
        · rcases List.mem_cons.mp h with h2 | h2
          · exact hyd h2.symm
          · exact hBo h2
      have hsplit : splitOnByte Byte.dot
          ((headerBytes ++ Byte.dot :: (Bo ++ Byte.dot :: S)).set
            (headerBytes.length + 0) y) = [headerBytes ++ y :: Bo, S] := by
        rw [heqR, List.set_cons_zero]
        rw [show headerBytes ++ y :: (Bo ++ Byte.dot :: S) =
            (headerBytes ++ y :: Bo) ++ Byte.dot :: S from by simp]
        rw [splitOnByte_append _ _ _ hfree2, splitOnByte_of_not_mem _ _ hS]
      exact verifyToken_eq_error_of_malformed cfg tv _ hne hnb hdm _ hsplit (by simp)
    | succ k2 =>
      have hkb : k2 < Bo.length + S.length + 1 := by omega
      have hyT : y ≠ getElem (Bo ++ Byte.dot :: S) k2 (by
          simp only [List.length_append, List.length_cons]; omega) := by
        intro hcon
        apply hy
        rw [hcon]
        rw [getElem_append_right_at _ _ _
          (by simp only [List.length_cons, List.length_append]; omega)]
        rw [List.getElem_cons_succ]
      rcases Nat.lt_or_ge k2 Bo.length with hB | hge2
      · -- the change lands in the payload segment
        have heq3 : (Bo ++ Byte.dot :: S).set k2 y = Bo.set k2 y ++ Byte.dot :: S :=
          List.set_append_left _ _ hB
        have hyB : y ≠ getElem Bo k2 hB := by
          intro hcon
          apply hyT
          rw [hcon]
          exact (List.getElem_append_left hB).symm
        by_cases hyd : y = Byte.dot
        · subst hyd
          have heq4 : Bo.set k2 Byte.dot = Bo.take k2 ++ Byte.dot :: Bo.drop (k2+1) := by
            rw [List.set_eq_take_append_cons_drop, if_pos hB]
          have hsplit : splitOnByte Byte.dot
              ((headerBytes ++ Byte.dot :: (Bo ++ Byte.dot :: S)).set
                (headerBytes.length + (k2+1)) Byte.dot) =
              [headerBytes, Bo.take k2, Bo.drop (k2+1), S] := by
            rw [heqR, List.set_cons_succ, heq3, heq4, List.append_assoc, List.cons_append]
            rw [splitOnByte_append _ _ _ hH,
                splitOnByte_append _ _ _ (hfree_take _ _ hBo),
                splitOnByte_append _ _ _ (hfree_drop _ _ hBo),
                splitOnByte_of_not_mem _ _ hS]
          exact verifyToken_eq_error_of_malformed cfg tv _ hne hnb hdm _ hsplit (by simp)
        · have hsplit : splitOnByte Byte.dot
              ((headerBytes ++ Byte.dot :: (Bo ++ Byte.dot :: S)).set
                (headerBytes.length + (k2+1)) y) =
              [headerBytes, Bo.set k2 y, S] := by
            rw [heqR, List.set_cons_succ, heq3]
            rw [splitOnByte_append _ _ _ hH,
                splitOnByte_append _ _ _ (hfree_set _ _ _ hBo hyd),
                splitOnByte_of_not_mem _ _ hS]
          apply verifyToken_eq_error_of_badSig cfg tv _ hne hnb hdm _ _ hsplit
          intro hcon
          rw [hmac] at hcon
          have hmsg := mac_inj _ _ _ hcon
          have h2 := List.append_cancel_left hmsg
          injection h2 with _ h3
          exact set_ne_self _ _ _ hB hyB h3.symm
      · obtain ⟨m, hm⟩ := Nat.exists_eq_add_of_le hge2
        subst hm
        have heq3 : (Bo ++ Byte.dot :: S).set (Bo.length + m) y =
            Bo ++ (Byte.dot :: S).set m y := set_append_right_at _ _ _ _
        cases m with
        | zero =>
          -- the change hits the second separator
          have hyd : y ≠ Byte.dot := by
            intro hcon
            apply hyT
            rw [hcon]
            have hval := getElem_append_length Bo S Byte.dot
              (by simp only [List.length_append, List.length_cons]; omega)
            simpa using hval.symm
          have hfree2 : Byte.dot ∉ Bo ++ y :: S := by
            intro hmem
            rcases List.mem_append.mp hmem with h | h
            · exact hBo h
            · rcases List.mem_cons.mp h with h2 | h2
              · exact hyd h2.symm
              · exact hS h2
          have hsplit : splitOnByte Byte.dot
              ((headerBytes ++ Byte.dot :: (Bo ++ Byte.dot :: S)).set
                (headerBytes.length + (Bo.length + 0 + 1)) y) =
              [headerBytes, Bo ++ y :: S] := by
            rw [heqR, List.set_cons_succ]
            simp only [Nat.add_zero] at heq3
            rw [heq3, List.set_cons_zero]
            rw [splitOnByte_append _ _ _ hH, splitOnByte_of_not_mem _ _ hfree2]
          exact verifyToken_eq_error_of_malformed cfg tv _ hne hnb hdm _ hsplit (by simp)
        | succ m2 =>
          have hmb : m2 < S.length := by omega
          have hyS : y ≠ getElem S m2 hmb := by
            intro hcon
            apply hyT
            rw [hcon]
            rw [getElem_append_right_at _ _ _
              (by simp only [List.length_cons]; omega)]
            rw [List.getElem_cons_succ]
          by_cases hyd : y = Byte.dot
          · subst hyd
            have heq4 : S.set m2 Byte.dot = S.take m2 ++ Byte.dot :: S.drop (m2+1) := by
              rw [List.set_eq_take_append_cons_drop, if_pos hmb]
            have hsplit : splitOnByte Byte.dot
                ((headerBytes ++ Byte.dot :: (Bo ++ Byte.dot :: S)).set
                  (headerBytes.length + (Bo.length + (m2+1) + 1)) Byte.dot) =
                [headerBytes, Bo, S.take m2, S.drop (m2+1)] := by
              rw [heqR, List.set_cons_succ, heq3, List.set_cons_succ, heq4]
              rw [splitOnByte_append _ _ _ hH,
                  splitOnByte_append _ _ _ hBo,
                  splitOnByte_append _ _ _ (hfree_take _ _ hS),
                  splitOnByte_of_not_mem _ _ (hfree_drop _ _ hS)]
            exact verifyToken_eq_error_of_malformed cfg tv _ hne hnb hdm _ hsplit (by simp)
          · have hsplit : splitOnByte Byte.dot
                ((headerBytes ++ Byte.dot :: (Bo ++ Byte.dot :: S)).set
                  (headerBytes.length + (Bo.length + (m2+1) + 1)) y) =
                [headerBytes, Bo, S.set m2 y] := by
              rw [heqR, List.set_cons_succ, heq3, List.set_cons_succ]
              rw [splitOnByte_append _ _ _ hH,
                  splitOnByte_append _ _ _ hBo,
                  splitOnByte_of_not_mem _ _ (hfree_set _ _ _ hS hyd)]
            apply verifyToken_eq_error_of_badSig cfg tv _ hne hnb hdm _ _ hsplit
            intro hcon
            rw [← hmac] at hcon
            exact set_ne_self _ _ _ hmb hyS hcon

/-! ### Inversion lemmas for verifyToken -/

theorem validateEmailDomain_ok_true (cfg : AuthConfig) (email : Str)
    (h : JWTService.validateEmailDomain cfg email = Except.ok true) :
    email ≠ [] ∧ '@' ∈ email ∧
      (splitAtOne email).map Char.toLower = cfg.allowedDomain.map Char.toLower := by
  rw [JWTService.validateEmailDomain] at h
  split at h
  · simp at h
  · rename_i hne
    split at h
    · simp at h
    · rename_i d heq
      rw [JWTService.extractDomain] at heq
      split at heq
      · simp at heq
      · rename_i hcond
        push_neg at hcond
        injection heq with heq2
        subst heq2
        simp only [Except.ok.injEq] at h
        exact ⟨hne, hcond.2, by simpa using h⟩

theorem verifyToken_error_structured (cfg : AuthConfig) (now : Nat) (token : List Byte)
    (e : JsError) (h : JWTService.verifyToken cfg now token = Except.error e) :
    e.code ≠ [] ∧ e.statusCode ≠ 0 := by
  simp only [JWTService.verifyToken] at h
  repeat' split at h
  all_goals
    first
      | (injection h with h2
         subst h2
         exact ⟨by simp [mkErr], by simp [mkErr]⟩)
      | simp at h

theorem generateToken_error_structured (cfg : AuthConfig) (now : Nat) (p : InputPayload)
    (expiresIn : Option Nat) (e : JsError)
    (h : JWTService.generateToken cfg now p expiresIn = Except.error e) :
    e.code ≠ [] ∧ e.statusCode ≠ 0 := by
  simp only [JWTService.generateToken] at h
  repeat' split at h
  all_goals
    first
      | (injection h with h2
         subst h2
         exact ⟨by simp [mkErr], by simp [mkErr]⟩)
      | simp at h

theorem verifyToken_ok_inversion (cfg : AuthConfig) (now : Nat) (token : List Byte)
    (d : TokenPayload) (h : JWTService.verifyToken cfg now token = Except.ok d) :
    d.id ≠ [] ∧ d.email ≠ [] ∧ '@' ∈ d.email ∧
      (splitAtOne d.email).map Char.toLower = cfg.allowedDomain.map Char.toLower ∧
      now < d.exp ∧ d.aud = "warehouse-frontend".toList ∧
      d.iss = "warehouse-api".toList ∧
      (∃ b, bodyDec b = some d ∧
        splitOnByte Byte.dot
            (if JWTService.bearerMark.isPrefixOf token then token.drop 7 else token) =
          [headerBytes, b, mac cfg.secret (headerBytes ++ Byte.dot :: b)]) := by
  simp only [JWTService.verifyToken] at h
  generalize hclean :
    (if JWTService.bearerMark.isPrefixOf token then token.drop 7 else token) = clean at h
  split at h
  · simp at h
  · split at h
    · simp at h
    · split at h
      · rename_i hX b s hsplit
        split at h
        · simp at h
        · rename_i hhdr
          push_neg at hhdr
          split at h
          · simp at h
          · rename_i hsig
            push_neg at hsig
            split at h
            · simp at h
            · rename_i decoded hdec
              split at h
              · simp at h
              · rename_i hexp
                split at h
                · simp at h
                · rename_i haud
                  push_neg at haud
                  split at h
                  · simp at h
                  · rename_i hiss
                    push_neg at hiss
                    split at h
                    · simp at h
                    · rename_i hids
                      split at h
                      · simp at h
                      · simp at h
                      · rename_i hdom
                        injection h with h2
                        subst h2
                        subst hhdr
                        subst hsig
                        push_neg at hids
                        have hval := validateEmailDomain_ok_true _ _ hdom
                        refine ⟨hids.1, hids.2, hval.2.1, hval.2.2, by omega,
                          haud, hiss, b, hdec, ?_⟩
                        rw [hsplit]
      · simp at h

/-! ### Further characterisation lemmas -/

theorem generateToken_ok_inversion (cfg : AuthConfig) (now : Nat) (p : InputPayload)
    (expiresIn : Option Nat) (tok : List Byte)
    (h : JWTService.generateToken cfg now p expiresIn = Except.ok tok) :
    p.id ≠ [] ∧ p.email ≠ [] ∧ '@' ∈ p.email ∧
      (splitAtOne p.email).map Char.toLower = cfg.allowedDomain.map Char.toLower ∧
      tok = signBytes cfg.secret
        { id := p.id, email := p.email, name := p.name, picture := p.picture,
          domain := splitAtOne p.email, iss := "warehouse-api".toList,
          aud := "warehouse-frontend".toList, iat := now,
          exp := now + expiresIn.getD cfg.expiresIn } := by
  rw [JWTService.generateToken] at h
  split at h
  · simp at h
  · rename_i hids
    push_neg at hids
    split at h
    · simp at h
    · simp at h
    · rename_i hdom
      have hval := validateEmailDomain_ok_true _ _ hdom
      injection h with h2
      exact ⟨hids.1, hids.2, hval.2.1, hval.2.2, h2.symm⟩

theorem decodeToken_signBytes (secret : Str) (t : TokenPayload) :
    JWTService.decodeToken (signBytes secret t) = some t := by
  rw [JWTService.decodeToken]
  have hnb : JWTService.bearerMark.isPrefixOf (signBytes secret t) = false := by
    rw [Bool.eq_false_iff]
    intro hc
    exact bearer_not_prefix_append _
      (List.isPrefixOf_iff_prefix.mp (by rw [← signBytes]; exact hc))
  simp only [hnb, Bool.false_eq_true, if_false, splitDot_signBytes]
  simp [bodyDec_bodyEnc]

theorem verifyToken_bearer_strip (cfg : AuthConfig) (now : Nat) (t : List Byte)
    (hne : t ≠ []) (hnp : JWTService.bearerMark.isPrefixOf t = false) :
    JWTService.verifyToken cfg now (JWTService.bearerMark ++ t) =
      JWTService.verifyToken cfg now t := by
  have h1 : JWTService.bearerMark ++ t ≠ [] := by
    simp [JWTService.bearerMark, strBytes]
  have h2 : JWTService.bearerMark.isPrefixOf (JWTService.bearerMark ++ t) = true := by
    rw [List.isPrefixOf_iff_prefix]
    exact List.prefix_append _ _
  have h3 : (JWTService.bearerMark ++ t).drop 7 = t := by
    rw [show (7 : Nat) = JWTService.bearerMark.length from rfl, List.drop_left]
  simp only [JWTService.verifyToken, h1, h2, h3, hne, hnp, Bool.false_eq_true,
    if_false, if_true, ite_false, ite_true]

theorem verifyToken_empty (cfg : AuthConfig) (now : Nat) (t : List Byte)
    (hne : t ≠ [])
    (hws : (if JWTService.bearerMark.isPrefixOf t then t.drop 7 else t).all
      JWTService.byteIsWs = true) :
    JWTService.verifyToken cfg now t =
      Except.error (mkErr "EMPTY_TOKEN" 400 "Token cannot be empty") := by
  simp only [JWTService.verifyToken]
  rw [if_neg hne, if_pos hws]

/-! ### Claim theorems -/

/-- C1: for every identity payload with `id` and `email` present whose
email's domain (`email.split('@')[1]`, via `extractDomain`)
case-insensitively equals the configured allowed domain, verifying the
token produced by issuing that payload (`generateToken` then
`verifyToken`, at any time before the token's expiry) succeeds and
returns claims whose `id`, `email`, `name`, `picture` and `domain`
fields equal the embedded subset of the input payload. -/
theorem claim_C1_verify_issue_roundtrip (cfg : AuthConfig) (now tv : Nat)
    (p : InputPayload) (hid : p.id ≠ []) (hem : p.email ≠ [])
    (hat : '@' ∈ p.email)
    (hdom : (splitAtOne p.email).map Char.toLower = cfg.allowedDomain.map Char.toLower)
    (htime : tv < now + cfg.expiresIn) :
    ∃ tok, JWTService.generateToken cfg now p none = Except.ok tok ∧
      JWTService.verifyToken cfg tv tok = Except.ok
        { id := p.id, email := p.email, name := p.name, picture := p.picture,
          domain := splitAtOne p.email, iss := "warehouse-api".toList,
          aud := "warehouse-frontend".toList, iat := now,
          exp := now + cfg.expiresIn } := by
  refine ⟨_, generateToken_ok cfg now p none hid hem hat hdom, ?_⟩
  exact verifyToken_signBytes cfg tv _ htime rfl rfl hid hem hat hdom

theorem claim_C1_witness :
    ∃ tok, JWTService.generateToken cfgW 0 payloadW none = Except.ok tok ∧
      JWTService.verifyToken cfgW 3 tok = Except.ok
        { id := payloadW.id, email := payloadW.email, name := payloadW.name,
          picture := payloadW.picture, domain := splitAtOne payloadW.email,
          iss := "warehouse-api".toList, aud := "warehouse-frontend".toList,
          iat := 0, exp := 0 + cfgW.expiresIn } :=
  claim_C1_verify_issue_roundtrip cfgW 0 3 payloadW (by decide) (by decide)
    (by decide) (by decide) (by decide)

/-- C2 (amended): for payloads with `id` and `email` present, an email
that contains `'@'` but whose domain part does not case-insensitively
equal the allowed domain makes `generateToken` fail with
`INVALID_DOMAIN` (403); an email with no `'@'` instead makes the
`extractDomain` throw escape `validateEmailDomain`, so `generateToken`
fails with `TOKEN_GENERATION_ERROR` (500), not `INVALID_DOMAIN`. -/
theorem claim_C2_invalid_domain (cfg : AuthConfig) (now : Nat) (p : InputPayload)
    (expiresIn : Option Nat) (hid : p.id ≠ []) (hem : p.email ≠ []) :
    ('@' ∈ p.email →
      (splitAtOne p.email).map Char.toLower ≠ cfg.allowedDomain.map Char.toLower →
      JWTService.generateToken cfg now p expiresIn =
        Except.error (mkErr "INVALID_DOMAIN" 403 "Invalid email domain for token generation")) ∧
    ('@' ∉ p.email →
      JWTService.generateToken cfg now p expiresIn =
        Except.error ⟨"TOKEN_GENERATION_ERROR".toList, 500,
          "Invalid email format".toList, none, none⟩) := by
  constructor
  · intro hat hdom
    rw [JWTService.generateToken, if_neg (by simp [hid, hem])]
    rw [JWTService.validateEmailDomain, if_neg hem, JWTService.extractDomain,
        if_neg (by simp [hem, hat])]
    simp [hdom]
  · intro hat
    rw [JWTService.generateToken, if_neg (by simp [hid, hem])]
    rw [JWTService.validateEmailDomain, if_neg hem, JWTService.extractDomain,
        if_pos (by simp [hat])]

theorem claim_C2_witness :
    JWTService.generateToken cfgW 0 ⟨"2".toList, "b@other.com".toList, none, none, none⟩
        none =
      Except.error (mkErr "INVALID_DOMAIN" 403 "Invalid email domain for token generation") :=
  (claim_C2_invalid_domain cfgW 0 ⟨"2".toList, "b@other.com".toList, none, none, none⟩
    none (by decide) (by decide)).1 (by decide) (by decide)

/-- C2 counterexample: the claim as stated also covers emails with no
`'@'`, but for those `generateToken` fails with `TOKEN_GENERATION_ERROR`
(500), not `INVALID_DOMAIN`. -/
theorem claim_C2_counterexample :
    JWTService.generateToken cfgW 0 ⟨"2".toList, "nodomain".toList, none, none, none⟩
        none =
      Except.error ⟨"TOKEN_GENERATION_ERROR".toList, 500,
        "Invalid email format".toList, none, none⟩ ∧
    ("TOKEN_GENERATION_ERROR".toList : Str) ≠ "INVALID_DOMAIN".toList :=
  ⟨rfl, by decide⟩

/-- C10: every token produced by `generateToken` embeds a `domain` claim
computed as `email.split('@')[1]`; any caller-supplied `domain` field is
ignored (re-issuing with any other `domain` field yields the identical
token); the embedded domain case-insensitively equals the configured
allowed domain; and the embedded issuer and audience are the fixed pair
`warehouse-api` / `warehouse-frontend`. -/
theorem claim_C10_issued_domain (cfg : AuthConfig) (now : Nat) (p : InputPayload)
    (expiresIn : Option Nat) (tok : List Byte)
    (hok : JWTService.generateToken cfg now p expiresIn = Except.ok tok) :
    (JWTService.decodeToken tok).map TokenPayload.domain =
      some (splitAtOne p.email) ∧
    (splitAtOne p.email).map Char.toLower = cfg.allowedDomain.map Char.toLower ∧
    (JWTService.decodeToken tok).map TokenPayload.iss = some "warehouse-api".toList ∧
    (JWTService.decodeToken tok).map TokenPayload.aud = some "warehouse-frontend".toList ∧
    (∀ d' : Option Str, JWTService.generateToken cfg now
        { id := p.id, email := p.email, name := p.name, picture := p.picture,
          domain := d' } expiresIn = Except.ok tok) := by
  obtain ⟨hid, hem, hat, hdom, htok⟩ :=
    generateToken_ok_inversion cfg now p expiresIn tok hok
  subst htok
  refine ⟨?_, hdom, ?_, ?_, ?_⟩
  · simp [decodeToken_signBytes]
  · simp [decodeToken_signBytes]
  · simp [decodeToken_signBytes]
  · intro dq
    exact generateToken_ok cfg now
      { id := p.id, email := p.email, name := p.name, picture := p.picture,
        domain := dq } expiresIn hid hem hat hdom

theorem claim_C10_witness :
    (JWTService.decodeToken tokenW).map TokenPayload.domain =
      some (splitAtOne payloadW.email) ∧
    (splitAtOne payloadW.email).map Char.toLower = cfgW.allowedDomain.map Char.toLower ∧
    (JWTService.decodeToken tokenW).map TokenPayload.iss = some "warehouse-api".toList ∧
    (JWTService.decodeToken tokenW).map TokenPayload.aud =
      some "warehouse-frontend".toList ∧
    (∀ d' : Option Str, JWTService.generateToken cfgW 0
        { id := payloadW.id, email := payloadW.email, name := payloadW.name,
          picture := payloadW.picture, domain := d' } none = Except.ok tokenW) :=
  claim_C10_issued_domain cfgW 0 payloadW none tokenW rfl

/-- C5: (i) changing any single byte of a token produced by
`generateToken` to a different byte makes `verifyToken` fail with
`INVALID_TOKEN`, at every verification time; (ii) `verifyToken` never
returns a claims payload unless the (cleaned) token splits into exactly
the three segments `header.body.signature` with the signature equal to
the MAC of `header.body` under the configured secret. -/
theorem claim_C5_tamper_invalid (cfg : AuthConfig) (tv : Nat) :
    (∀ (now : Nat) (p : InputPayload) (tok : List Byte),
      JWTService.generateToken cfg now p none = Except.ok tok →
      ∀ (i : Nat) (hi : i < tok.length) (y : Byte), y ≠ tok.get ⟨i, hi⟩ →
      JWTService.verifyToken cfg tv (tok.set i y) =
        Except.error (mkErr "INVALID_TOKEN" 400
          "Invalid authentication token. Please sign in again.")) ∧
    (∀ (token : List Byte) (d : TokenPayload),
      JWTService.verifyToken cfg tv token = Except.ok d →
      ∃ b, bodyDec b = some d ∧
        splitOnByte Byte.dot
            (if JWTService.bearerMark.isPrefixOf token then token.drop 7 else token) =
          [headerBytes, b, mac cfg.secret (headerBytes ++ Byte.dot :: b)]) := by
  constructor
  · intro now p tok hok i hi y hy
    obtain ⟨hid, hem, hat, hdom, htok⟩ :=
      generateToken_ok_inversion cfg now p none tok hok
    subst htok
    exact verifyToken_set_tampered cfg tv (bodyEnc _)
      (mac cfg.secret (headerBytes ++ Byte.dot :: bodyEnc _))
      (dot_not_mem_bodyEnc _) (dot_not_mem_mac _ _) rfl i y hi hy
  · intro token d h
    exact (verifyToken_ok_inversion cfg tv token d h).2.2.2.2.2.2.2

theorem claim_C5_witness :
    JWTService.verifyToken cfgW 0 (tokenW.set 0 (Byte.raw 'X')) =
      Except.error (mkErr "INVALID_TOKEN" 400
        "Invalid authentication token. Please sign in again.") :=
  (claim_C5_tamper_invalid cfgW 0).1 0 payloadW tokenW rfl 0 (by decide)
    (Byte.raw 'X') (by decide)

/-- C8 (amended): verification of a `'Bearer '`-prefixed token equals
verification of the bare token whenever the bare token is non-empty and
does not itself begin with `'Bearer '`; the empty string is rejected
with `INVALID_TOKEN_FORMAT` (not `EMPTY_TOKEN`); and a non-empty input
that is all-whitespace after removing the prefix is rejected with
`EMPTY_TOKEN`. -/
theorem claim_C8_prefix_and_empty (cfg : AuthConfig) (now : Nat) :
    (∀ t : List Byte, t ≠ [] → JWTService.bearerMark.isPrefixOf t = false →
      JWTService.verifyToken cfg now (JWTService.bearerMark ++ t) =
        JWTService.verifyToken cfg now t) ∧
    (JWTService.verifyToken cfg now [] =
      Except.error (mkErr "INVALID_TOKEN_FORMAT" 400 "Token must be a valid string")) ∧
    (∀ t : List Byte, t ≠ [] →
      (if JWTService.bearerMark.isPrefixOf t then t.drop 7 else t).all
        JWTService.byteIsWs = true →
      JWTService.verifyToken cfg now t =
        Except.error (mkErr "EMPTY_TOKEN" 400 "Token cannot be empty")) := by
  refine ⟨verifyToken_bearer_strip cfg now, rfl, verifyToken_empty cfg now⟩

theorem claim_C8_witness :
    JWTService.verifyToken cfgW 0 (JWTService.bearerMark ++ tokenW) =
      JWTService.verifyToken cfgW 0 tokenW ∧
    JWTService.verifyToken cfgW 0 (strBytes "   ".toList) =
      Except.error (mkErr "EMPTY_TOKEN" 400 "Token cannot be empty") :=
  ⟨(claim_C8_prefix_and_empty cfgW 0).1 tokenW (by decide) (by decide),
   (claim_C8_prefix_and_empty cfgW 0).2.2 (strBytes "   ".toList) (by decide) (by decide)⟩

/-- C8 counterexample: the empty string is rejected with code
`INVALID_TOKEN_FORMAT`, not `EMPTY_TOKEN` as the claim states. -/
theorem claim_C8_counterexample :
    JWTService.verifyToken cfgW 0 [] =
      Except.error (mkErr "INVALID_TOKEN_FORMAT" 400 "Token must be a valid string") ∧
    (mkErr "INVALID_TOKEN_FORMAT" 400 "Token must be a valid string").code ≠
      "EMPTY_TOKEN".toList :=
  ⟨rfl, by decide⟩

/-- C4 (amended): (i) whenever `verifyToken` fails, `refreshToken` fails
with exactly the same error object; (ii) on a token that verifies to
claims `d`, `refreshToken` issues a new token whose `id`, `email`,
`name` and `picture` are identical to `d`'s, whose `domain` is
recomputed from `d.email` (hence identical for every service-issued
token), and whose expiry is exactly the refresh time plus the configured
TTL — strictly later than the input's expiry iff
`now + expiresIn > d.exp`, and in particular not strictly later when a
default-TTL token is refreshed at its own issuance instant. -/
theorem claim_C4_refresh (cfg : AuthConfig) (now : Nat) :
    (∀ (token : List Byte) (e : JsError),
      JWTService.verifyToken cfg now token = Except.error e →
      JWTService.refreshToken cfg now token = Except.error e) ∧
    (∀ (token : List Byte) (d : TokenPayload),
      JWTService.verifyToken cfg now token = Except.ok d →
      ∃ tok', JWTService.refreshToken cfg now token = Except.ok tok' ∧
        ∀ tv, tv < now + cfg.expiresIn →
          JWTService.verifyToken cfg tv tok' = Except.ok
            { id := d.id, email := d.email, name := d.name, picture := d.picture,
              domain := splitAtOne d.email, iss := "warehouse-api".toList,
              aud := "warehouse-frontend".toList, iat := now,
              exp := now + cfg.expiresIn }) := by
  constructor
  · intro token e h
    have hstruct := verifyToken_error_structured cfg now token e h
    rw [JWTService.refreshToken, h]
    simp [hstruct.1, hstruct.2]
  · intro token d h
    obtain ⟨hid, hem, hat, hdom, hexp, haud, hiss, _⟩ :=
      verifyToken_ok_inversion cfg now token d h
    have hgen := generateToken_ok cfg now
      { id := d.id, email := d.email, name := d.name, picture := d.picture,
        domain := some d.domain } none hid hem hat hdom
    refine ⟨signBytes cfg.secret
      { id := d.id, email := d.email, name := d.name, picture := d.picture,
        domain := splitAtOne d.email, iss := "warehouse-api".toList,
        aud := "warehouse-frontend".toList, iat := now,
        exp := now + cfg.expiresIn }, ?_, ?_⟩
    · rw [JWTService.refreshToken, h]
      simp [hgen]
    · intro tv htv
      exact verifyToken_signBytes cfg tv _ htv rfl rfl hid hem hat hdom

theorem claim_C4_witness :
    ∃ tok', JWTService.refreshToken cfgW 3 tokenW = Except.ok tok' ∧
      ∀ tv, tv < 3 + cfgW.expiresIn →
        JWTService.verifyToken cfgW tv tok' = Except.ok
          { id := payloadW.id, email := payloadW.email, name := payloadW.name,
            picture := payloadW.picture, domain := splitAtOne payloadW.email,
            iss := "warehouse-api".toList, aud := "warehouse-frontend".toList,
            iat := 3, exp := 3 + cfgW.expiresIn } :=
  (claim_C4_refresh cfgW 3).2 tokenW
    { id := payloadW.id, email := payloadW.email, name := payloadW.name,
      picture := payloadW.picture, domain := splitAtOne payloadW.email,
      iss := "warehouse-api".toList, aud := "warehouse-frontend".toList,
      iat := 0, exp := 0 + cfgW.expiresIn } rfl

/-- C4 counterexample: a valid unexpired token refreshed at the instant
of its issuance yields a token with the same expiry (5), not a strictly
later one. -/
theorem claim_C4_counterexample :
    (JWTService.verifyToken cfgW 0 tokenW).isOk = true ∧
    (JWTService.decodeToken tokenW).map TokenPayload.exp = some 5 ∧
    JWTService.refreshToken cfgW 0 tokenW = Except.ok refreshedW ∧
    (JWTService.decodeToken refreshedW).map TokenPayload.exp = some 5 :=
  ⟨by decide, by decide, rfl, by decide⟩

/-- C6: for a successfully fetched profile with `id` and `email` present
whose email has a well-formed domain part (`extractDomain` succeeds): if
the domain does not case-insensitively equal the configured allowed
domain, `getUserProfile` fails with `DOMAIN_RESTRICTED` carrying both
the observed user domain and the allowed domain, and never returns the
profile; if it matches, the profile is returned. -/
theorem claim_C6_domain_gate (cfg : AuthConfig)
    (pd : GoogleOAuthService.GoogleProfileData) (dom : Str)
    (hid : pd.id ≠ [])
    (hdom : GoogleOAuthService.extractDomain pd.email = Except.ok dom) :
    (dom.map Char.toLower ≠ cfg.allowedDomain.map Char.toLower →
      GoogleOAuthService.getUserProfile cfg pd =
        Except.error ⟨"DOMAIN_RESTRICTED".toList, 403,
          ("Access restricted to @".toList ++ cfg.allowedDomain ++
            " accounts. Found: @".toList ++ dom),
          some dom, some cfg.allowedDomain⟩) ∧
    (dom.map Char.toLower = cfg.allowedDomain.map Char.toLower →
      GoogleOAuthService.getUserProfile cfg pd = Except.ok
        { id := pd.id, email := pd.email, name := pd.name.getD [],
          picture := pd.picture.getD [],
          verified_email := pd.verified_email.getD false,
          locale := pd.locale.getD "en".toList }) := by
  have hem : pd.email ≠ [] := by
    intro hc
    rw [GoogleOAuthService.extractDomain, if_pos hc] at hdom
    simp at hdom
  constructor
  · intro hmis
    rw [GoogleOAuthService.getUserProfile, if_neg (by simp [hid, hem])]
    rw [GoogleOAuthService.validateDomain, if_neg hem, hdom]
    rw [if_pos (by simp [hmis])]
  · intro hmatch
    rw [GoogleOAuthService.getUserProfile, if_neg (by simp [hid, hem])]
    rw [GoogleOAuthService.validateDomain, if_neg hem, hdom]
    rw [if_neg (by simp [hmatch])]

theorem claim_C6_witness :
    GoogleOAuthService.getUserProfile cfgW
        ⟨"2".toList, "a@other.com".toList, none, none, none, none⟩ =
      Except.error ⟨"DOMAIN_RESTRICTED".toList, 403,
        ("Access restricted to @".toList ++ cfgW.allowedDomain ++
          " accounts. Found: @".toList ++ "other.com".toList),
        some "other.com".toList, some cfgW.allowedDomain⟩ :=
  (claim_C6_domain_gate cfgW ⟨"2".toList, "a@other.com".toList, none, none, none, none⟩
    "other.com".toList (by decide) rfl).1 (by decide)

/-- C7 (amended): every callback request ends in a redirect to the
configured front-end URL — carrying either the signed token with the
public identity fields or an error message, never a JSON body — and a
provider error code found in the fixed dictionary is mapped through it.
(An unknown provider error code, however, falls back to the raw
`error_description`; see the counterexample.) -/
theorem claim_C7_always_redirect (cfg : AuthConfig) (now : Nat)
    (flow : Str → Except JsError GoogleOAuthService.UserProfile)
    (q : AuthController.Query) :
    (∃ payload, AuthController.handleOAuthCallback cfg now flow q =
      AuthController.CtrlResponse.redirect cfg.frontendUrl payload) ∧
    (∀ e m, q.error = some e → AuthController.truthy q.error = true →
      (e, m) ∈ AuthController.oauthErrorMessages →
      AuthController.handleOAuthCallback cfg now flow q =
        AuthController.CtrlResponse.redirect cfg.frontendUrl
          (AuthController.RedirectPayload.errMsg m)) := by
  constructor
  · unfold AuthController.handleOAuthCallback
    repeat' split
    all_goals exact ⟨_, rfl⟩
  · intro e m heq htr hmem
    have hlook : AuthController.oauthErrorMessages.lookup e = some m := by
      simp only [AuthController.oauthErrorMessages, List.mem_cons,
        List.not_mem_nil, or_false] at hmem
      rcases hmem with h | h | h | h | h | h | h <;>
        (rw [Prod.mk.injEq] at h
         obtain ⟨h1, h2⟩ := h
         subst h1
         subst h2
         rfl)
    rw [AuthController.handleOAuthCallback, if_pos htr, heq]
    simp only [Option.getD_some]
    rw [AuthController.getOAuthErrorMessage, hlook]

theorem claim_C7_witness :
    AuthController.handleOAuthCallback cfgW 0 (fun _ => Except.error (mkErr "X" 500 "x"))
        ⟨none, some "access_denied".toList, none, none⟩ =
      AuthController.CtrlResponse.redirect cfgW.frontendUrl
        (AuthController.RedirectPayload.errMsg
          "You cancelled the sign-in process. Please try again to access the application.".toList) :=
  (claim_C7_always_redirect cfgW 0 (fun _ => Except.error (mkErr "X" 500 "x"))
    ⟨none, some "access_denied".toList, none, none⟩).2
    "access_denied".toList _ rfl (by decide) (by decide)

/-- C7 counterexample: for a provider error code outside the fixed
dictionary, the redirect carries the raw provider-supplied
`error_description` verbatim — contradicting "never the raw internal
error". -/
theorem claim_C7_counterexample :
    AuthController.handleOAuthCallback cfgW 0 (fun _ => Except.error (mkErr "X" 500 "x"))
        ⟨none, some "strange_error".toList, some "raw provider diagnostic".toList, none⟩ =
      AuthController.CtrlResponse.redirect cfgW.frontendUrl
        (AuthController.RedirectPayload.errMsg "raw provider diagnostic".toList) := by
  rfl

/-- C3 (amended): when no bearer token can be extracted from the
Authorization header, `authenticateJWT` responds 401 with the default
code `UNAUTHORIZED` (not `missing_token`); `handleAuthenticationError`
maps `TOKEN_EXPIRED`→401, `INVALID_TOKEN`/`INVALID_TOKEN_FORMAT`/
`INVALID_TOKEN_PAYLOAD`→401 (as `INVALID_TOKEN`), `EMPTY_TOKEN`→401 (as
`MISSING_TOKEN`), `INVALID_DOMAIN`→403 (`DOMAIN_RESTRICTED`),
`TOKEN_NOT_ACTIVE`→401; every unknown code is answered with status 401
and code `AUTH_FAILED` — the error's own `statusCode` only selects the
message; and on successful verification the middleware attaches the
authenticated identity and the issued-at/expires-at token metadata and
proceeds. -/
theorem claim_C3_middleware_mapping (cfg : AuthConfig) (now : Nat) :
    (AuthMiddleware.authenticateJWT cfg now none =
      AuthMiddleware.MwResult.respond 401 "UNAUTHORIZED".toList
        "No authentication token provided".toList) ∧
    (∀ e : JsError,
      (e.code = "TOKEN_EXPIRED".toList →
        AuthMiddleware.handleAuthenticationError e =
          AuthMiddleware.MwResult.respond 401 "TOKEN_EXPIRED".toList
            "Your session has expired. Please sign in again.".toList) ∧
      (e.code = "INVALID_TOKEN".toList ∨ e.code = "INVALID_TOKEN_FORMAT".toList ∨
          e.code = "INVALID_TOKEN_PAYLOAD".toList →
        AuthMiddleware.handleAuthenticationError e =
          AuthMiddleware.MwResult.respond 401 "INVALID_TOKEN".toList
            "Invalid authentication token. Please sign in again.".toList) ∧
      (e.code = "EMPTY_TOKEN".toList →
        AuthMiddleware.handleAuthenticationError e =
          AuthMiddleware.MwResult.respond 401 "MISSING_TOKEN".toList
            "Authentication token is required.".toList) ∧
      (e.code = "INVALID_DOMAIN".toList →
        AuthMiddleware.handleAuthenticationError e =
          AuthMiddleware.MwResult.respond 403 "DOMAIN_RESTRICTED".toList
            "Access restricted to authorized domains.".toList) ∧
      (e.code = "TOKEN_NOT_ACTIVE".toList →
        AuthMiddleware.handleAuthenticationError e =
          AuthMiddleware.MwResult.respond 401 "TOKEN_NOT_ACTIVE".toList
            "Authentication token is not yet valid.".toList) ∧
      (e.code ∉ ["TOKEN_EXPIRED".toList, "INVALID_TOKEN".toList,
          "INVALID_TOKEN_FORMAT".toList, "INVALID_TOKEN_PAYLOAD".toList,
          "EMPTY_TOKEN".toList, "INVALID_DOMAIN".toList,
          "TOKEN_NOT_ACTIVE".toList] →
        ∃ msg, AuthMiddleware.handleAuthenticationError e =
          AuthMiddleware.MwResult.respond 401 "AUTH_FAILED".toList msg)) ∧
    (∀ (h : Option (List Byte)) (token : List Byte) (u : TokenPayload),
      AuthMiddleware.extractTokenFromHeader h = some token → token ≠ [] →
      JWTService.verifyToken cfg now token = Except.ok u →
      AuthMiddleware.authenticateJWT cfg now h =
        AuthMiddleware.MwResult.next
          (some ⟨u.id, u.email, u.name, u.picture, u.domain, true⟩)
          (some ⟨token, u.iat, u.exp⟩)) := by
  refine ⟨rfl, ?_, ?_⟩
  · intro e
    refine ⟨?_, ?_, ?_, ?_, ?_, ?_⟩
    · intro h1
      rw [AuthMiddleware.handleAuthenticationError, if_pos h1]
    · intro h1
      rcases h1 with h1 | h1 | h1 <;>
        (rw [AuthMiddleware.handleAuthenticationError,
             if_neg (by rw [h1]; decide), if_pos (by rw [h1]; decide)])
    · intro h1
      rw [AuthMiddleware.handleAuthenticationError,
          if_neg (by rw [h1]; decide), if_neg (by rw [h1]; decide),
          if_pos h1]
    · intro h1
      rw [AuthMiddleware.handleAuthenticationError,
          if_neg (by rw [h1]; decide), if_neg (by rw [h1]; decide),
          if_neg (by rw [h1]; decide), if_pos h1]
    · intro h1
      rw [AuthMiddleware.handleAuthenticationError,
          if_neg (by rw [h1]; decide), if_neg (by rw [h1]; decide),
          if_neg (by rw [h1]; decide), if_neg (by rw [h1]; decide),
          if_pos h1]
    · intro h1
      simp only [List.mem_cons, List.not_mem_nil, or_false, not_or] at h1
      obtain ⟨n1, n2, n3, n4, n5, n6, n7⟩ := h1
      refine ⟨(if (if e.statusCode = 0 then 401 else e.statusCode) ≥ 500 then
          "Authentication service error. Please try again.".toList
        else if e.message = [] then "Authentication failed".toList
        else e.message), ?_⟩
      rw [AuthMiddleware.handleAuthenticationError,
          if_neg n1, if_neg (by simp only [not_or]; exact ⟨n2, n3, n4⟩),
          if_neg n5, if_neg n6, if_neg n7]
  · intro h token u hex htne hver
    rw [AuthMiddleware.authenticateJWT, hex]
    simp only [if_neg htne, hver]

theorem claim_C3_witness :
    AuthMiddleware.handleAuthenticationError (mkErr "TOKEN_EXPIRED" 401 "x") =
      AuthMiddleware.MwResult.respond 401 "TOKEN_EXPIRED".toList
        "Your session has expired. Please sign in again.".toList ∧
    AuthMiddleware.authenticateJWT cfgW 0 (some tokenW) =
      AuthMiddleware.MwResult.next
        (some ⟨payloadW.id, payloadW.email, payloadW.name, payloadW.picture,
          splitAtOne payloadW.email, true⟩)
        (some ⟨tokenW, 0, 0 + cfgW.expiresIn⟩) :=
  ⟨((claim_C3_middleware_mapping cfgW 0).2.1 (mkErr "TOKEN_EXPIRED" 401 "x")).1 rfl,
   (claim_C3_middleware_mapping cfgW 0).2.2 (some tokenW) tokenW
     { id := payloadW.id, email := payloadW.email, name := payloadW.name,
       picture := payloadW.picture, domain := splitAtOne payloadW.email,
       iss := "warehouse-api".toList, aud := "warehouse-frontend".toList,
       iat := 0, exp := 0 + cfgW.expiresIn } rfl (by decide) rfl⟩

/-- C3 counterexample: with no Authorization header the middleware
responds 401 with the `sendUnauthorizedResponse` default code
`UNAUTHORIZED`, not `missing_token` (in any casing) as the claim
states. -/
theorem claim_C3_counterexample :
    AuthMiddleware.authenticateJWT cfgW 0 none =
      AuthMiddleware.MwResult.respond 401 "UNAUTHORIZED".toList
        "No authentication token provided".toList ∧
    ("UNAUTHORIZED".toList : Str) ≠ "missing_token".toList ∧
    ("UNAUTHORIZED".toList : Str) ≠ "MISSING_TOKEN".toList :=
  ⟨rfl, by decide, by decide⟩

/-- C9: the optional-authentication middleware never rejects: every
outcome is a `next`; when no token can be extracted, or the extracted
token is empty, or verification fails for any reason, it proceeds with a
null identity; on successful verification it attaches the authenticated
identity and token metadata and proceeds. -/
theorem claim_C9_optional_never_rejects (cfg : AuthConfig) (now : Nat) :
    (∀ h : Option (List Byte), ∃ u ti,
      AuthMiddleware.optionalAuthentication cfg now h =
        AuthMiddleware.MwResult.next u ti) ∧
    (∀ h, AuthMiddleware.extractTokenFromHeader h = none →
      AuthMiddleware.optionalAuthentication cfg now h =
        AuthMiddleware.MwResult.next none none) ∧
    (∀ h token e, AuthMiddleware.extractTokenFromHeader h = some token →
      token ≠ [] → JWTService.verifyToken cfg now token = Except.error e →
      AuthMiddleware.optionalAuthentication cfg now h =
        AuthMiddleware.MwResult.next none none) ∧
    (∀ h token u, AuthMiddleware.extractTokenFromHeader h = some token →
      token ≠ [] → JWTService.verifyToken cfg now token = Except.ok u →
      AuthMiddleware.optionalAuthentication cfg now h =
        AuthMiddleware.MwResult.next
          (some ⟨u.id, u.email, u.name, u.picture, u.domain, true⟩)
          (some ⟨token, u.iat, u.exp⟩)) := by
  refine ⟨?_, ?_, ?_, ?_⟩
  · intro h
    unfold AuthMiddleware.optionalAuthentication
    repeat' split
    all_goals exact ⟨_, _, rfl⟩
  · intro h hex
    rw [AuthMiddleware.optionalAuthentication, hex]
  · intro h token e hex htne hver
    rw [AuthMiddleware.optionalAuthentication, hex]
    simp only [if_neg htne, hver]
  · intro h token u hex htne hver
    rw [AuthMiddleware.optionalAuthentication, hex]
    simp only [if_neg htne, hver]

theorem claim_C9_witness :
    AuthMiddleware.optionalAuthentication cfgW 0 none =
      AuthMiddleware.MwResult.next none none ∧
    AuthMiddleware.optionalAuthentication cfgW 0 (some (strBytes "garbage".toList)) =
      AuthMiddleware.MwResult.next none none :=
  ⟨(claim_C9_optional_never_rejects cfgW 0).2.1 none rfl,
   (claim_C9_optional_never_rejects cfgW 0).2.2.1 (some (strBytes "garbage".toList))
     (strBytes "garbage".toList)
     (mkErr "INVALID_TOKEN" 400 "Invalid authentication token. Please sign in again.")
     rfl (by decide) rfl⟩
